import Mathlib

/-!
Verification development for the `bun-ffi-gen` repository (TypeScript).

The definitions below are a shallow embedding of `src/parser.ts` and
`src/gen.ts`.  JavaScript `Map`s are embedded as insertion-ordered
association lists (`Map.set` replaces an existing key in place, otherwise
appends; iteration order is insertion order), JavaScript `Set`s as
duplicate-free lists in insertion order, thrown exceptions as
`Except String`, and `undefined`-able fields as `Option`.
Error-message strings are abbreviated (the source interpolates whole JSON
statements into its messages; no property below depends on message text).
-/

/-! ## JavaScript Map / Set embedding -/

/-- `Map.get`: first (unique) entry with the given key. -/
def mapGet {α : Type} (m : List (String × α)) (k : String) : Option α :=
  (m.find? (fun p => p.1 = k)).map (fun p => p.2)

/-- `Map.set`: replace in place when the key is present, else append. -/
def mapSet {α : Type} (m : List (String × α)) (k : String) (v : α) :
    List (String × α) :=
  if m.any (fun p => p.1 = k) then
    m.map (fun p => if p.1 = k then (k, v) else p)
  else
    m ++ [(k, v)]

/-- `Map.delete`: remove the entry with the given key. -/
def mapDelete {α : Type} (m : List (String × α)) (k : String) :
    List (String × α) :=
  m.filter (fun p => ¬ p.1 = k)

/-- `Map.has`. -/
def mapHas {α : Type} (m : List (String × α)) (k : String) : Bool :=
  m.any (fun p => p.1 = k)

/-- `Set.add`: append unless already present. -/
def setAdd (s : List String) (k : String) : List String :=
  if k ∈ s then s else s ++ [k]

theorem mapDelete_length_lt {α : Type} {v : α} (m : List (String × α))
    (k : String) (h : mapGet m k = some v) :
    (mapDelete m k).length < m.length := by
  induction m with
  | nil => simp [mapGet] at h
  | cons p rest ih =>
    by_cases hk : p.1 = k
    · have he : mapDelete (p :: rest) k = mapDelete rest k := by
        simp [mapDelete, List.filter_cons, hk]
      rw [he]
      exact Nat.lt_succ_of_le (List.length_filter_le _ rest)
    · have h2 : mapGet rest k = some v := by
        unfold mapGet at h ⊢
        rwa [List.find?_cons_of_neg _ (by simpa using hk)] at h
      have he : mapDelete (p :: rest) k = p :: mapDelete rest k := by
        simp [mapDelete, List.filter_cons, hk]
      rw [he]
      simpa using Nat.succ_lt_succ (ih h2)

inductive EnumFieldValue where
  | alias (value : String)
  | int (value : String)
  | expr (value : String)
  deriving DecidableEq, Repr

inductive ParsedClangAstItem where
  | enum (size : Nat) (name : Option String)
      (fields : List (String × EnumFieldValue))
  | alias (size : Nat) (noEmit : Bool) (name : Option String)
      (aliasTo : ParsedClangAstItem)
  | lazy_alias (name : String) (aliasTo : String)
  | pointer (size : Nat) (name : Option String)
      (baseType : Option ParsedClangAstItem) (is_const : Bool)
  | builtin (size : Nat) (ffiType : String) (name : Option String)
  | func_decl (size : Nat) (name : Option String)
      (returnType : ParsedClangAstItem)
      (args : List (Option String × ParsedClangAstItem))
  | func_pointer (size : Nat) (name : Option String)
      (decl : ParsedClangAstItem)
  | struct (size : Nat) (name : Option String)
      (fields : List (String × Nat × Nat × ParsedClangAstItem))
  | static_array (length : Nat) (size : Nat) (name : String)
      (itemType : ParsedClangAstItem)
  | union (size : Nat) (name : Option String)
      (variants : List (String × Nat × Nat × ParsedClangAstItem))

namespace ParsedClangAstItem

/-- The `.size` field.  A lazy alias has no `size` property in the source
(reading it would yield `undefined`); it is never read on that variant. -/
def size : ParsedClangAstItem → Nat
  | .enum s _ _ => s
  | .alias s _ _ _ => s
  | .lazy_alias _ _ => 0
  | .pointer s _ _ _ => s
  | .builtin s _ _ => s
  | .func_decl s _ _ _ => s
  | .func_pointer s _ _ => s
  | .struct s _ _ => s
  | .static_array _ s _ _ => s
  | .union s _ _ => s

/-- The `.name` field (`undefined` modeled as `none`). -/
def name : ParsedClangAstItem → Option String
  | .enum _ n _ => n
  | .alias _ _ n _ => n
  | .lazy_alias n _ => some n
  | .pointer _ n _ _ => n
  | .builtin _ _ n => n
  | .func_decl _ n _ _ => n
  | .func_pointer _ n _ => n
  | .struct _ n _ => n
  | .static_array _ _ n _ => some n
  | .union _ n _ => n

/-- Discriminator for the `lazy_alias` variant. -/
def isLazyAlias : ParsedClangAstItem → Bool
  | .lazy_alias _ _ => true
  | _ => false

end ParsedClangAstItem

/-- `POINTER_SIZE` (src/constants.ts, not under src/ in this snapshot).
Modelled from the spec: function pointers are "pointer-sized" and the
generated opaque-pointer helper allocates an 8-byte buffer. -/
def POINTER_SIZE : Nat := 8

/-! ## String primitives

The JavaScript string operations used by the parser, implemented over
the character list so they compute by kernel reduction. -/

/-- JavaScript `s.endsWith(t)`. -/
def jsEndsWith (s t : String) : Bool := t.data.isSuffixOf s.data

/-- JavaScript `s.startsWith(t)`. -/
def jsStartsWith (s t : String) : Bool := t.data.isPrefixOf s.data

/-- JavaScript `s.substr(n)` / the suffix after the first `n`
characters. -/
def jsDrop (s : String) (n : Nat) : String := (s.data.drop n).asString

/-- All but the last `n` characters. -/
def jsDropRight (s : String) (n : Nat) : String :=
  (s.data.take (s.data.length - n)).asString

/-- JavaScript `s.trim()`. -/
def jsTrim (s : String) : String :=
  ((s.data.dropWhile Char.isWhitespace).reverse.dropWhile
    Char.isWhitespace).reverse.asString

/-- JavaScript `Number(s)` on the nonnegative decimal strings that occur
as clang integer literals and array lengths (other inputs give `NaN`,
which never arises on the inputs considered here). -/
def jsNat (s : String) : Nat :=
  if s.data ≠ [] ∧ s.data.all Char.isDigit then
    s.data.foldl (fun acc c => acc * 10 + (c.toNat - 48)) 0
  else 0

/-! ## String-pattern helpers (the regexes of `extractQualTypeOrPtr`) -/

/-- A `\w` word character. -/
def isWordChar (c : Char) : Bool :=
  c.isAlpha || c.isDigit || c = '_'

/-- Match `(\w+) \*$` against `r`: `r` is `base ++ " *"` with `base`
nonempty all word characters; returns `base`. -/
def wordBaseStar (r : String) : Option String :=
  if jsEndsWith r " *" then
    let b := jsDropRight r 2
    if b.length > 0 && b.toList.all isWordChar then some b else none
  else none

/-- The regex `^const (?:struct\s)?(\w+) \*$` (parser.ts line 256); `\s`
instantiated with a space.  Backtracking: if stripping `struct ` makes the
rest fail, the unstripped form is tried. -/
def constPtrMatch (s : String) : Option String :=
  if jsStartsWith s "const " then
    let r := jsDrop s 6
    if jsStartsWith r "struct " then
      match wordBaseStar (jsDrop r 7) with
      | some b => some b
      | none => wordBaseStar r
    else wordBaseStar r
  else none

/-- Greedy capture of `([\w\W\s]+)\s?\*(?:const)?$` applied to `r`:
the capture extends to the character before the final `*` (a trailing
space stays inside the capture, since the capture group is greedy and
`\s?` can match empty). -/
def anyBaseStar (r : String) : Option String :=
  if jsEndsWith r "*" then
    let b := jsDropRight r 1
    if b.length > 0 then some b else none
  else if jsEndsWith r "*const" then
    let b := jsDropRight r 6
    if b.length > 0 then some b else none
  else none

/-- The regex `^(?:struct\s)?([\w\W\s]+)\s?\*(?:const)?$` (parser.ts
line 257), with the same backtracking convention as `constPtrMatch`. -/
def ptrMatch (s : String) : Option String :=
  if jsStartsWith s "struct " then
    match anyBaseStar (jsDrop s 7) with
    | some b => some b
    | none => anyBaseStar s
  else anyBaseStar s

/-- The regex `^([\w\W]+)\[(\w+)\]$` (parser.ts line 231): greedy, so the
opening bracket is the last `[` of the string, and everything between it
and the final `]` must be word characters.  Returns (base, length text). -/
def staticArrayMatch (s : String) : Option (String × String) :=
  if jsEndsWith s "]" then
    let t := jsDropRight s 1
    let cs := t.toList
    let innerRev := cs.reverse.takeWhile (fun c => ¬ c = '[')
    if innerRev.length = cs.length then none
    else
      let base := (cs.take (cs.length - innerRev.length - 1)).asString
      let inner := innerRev.reverse.asString
      if inner.length > 0 && inner.toList.all isWordChar && base.length > 0 then
        some (base, inner)
      else none
  else none

/-! ## Resolver helpers (parser.ts lines 155-206) -/

/-- `aliasDecl` (parser.ts lines 155-165): unwrap a `noEmit` alias,
otherwise wrap the item in a fresh alias carrying its name and size. -/
def aliasDecl (aliasTo : ParsedClangAstItem) : ParsedClangAstItem :=
  match aliasTo with
  | .alias _ true _ inner => inner
  | t => .alias t.size false t.name t

/-- `findDecl` with a function predicate (parser.ts lines 177-185):
first declaration value satisfying the predicate, in insertion order,
wrapped by `aliasDecl` when `makeAlias` is set. -/
def findDeclP (decls : List (String × ParsedClangAstItem))
    (pred : ParsedClangAstItem → Bool) (makeAlias : Bool) :
    Option ParsedClangAstItem :=
  match decls.find? (fun p => pred p.2) with
  | some p => some (if makeAlias then aliasDecl p.2 else p.2)
  | none => none

/-- `findDecl` with the object pattern `{ name: nm }` (parser.ts lines
186-197): only the `name` field is compared. -/
def findDeclByName (decls : List (String × ParsedClangAstItem))
    (nm : String) (makeAlias : Bool) : Option ParsedClangAstItem :=
  findDeclP decls (fun t => t.name = some nm) makeAlias

/-- `getDecl` (parser.ts lines 167-175): lookup by map key, throwing
when absent. -/
def getDecl (decls : List (String × ParsedClangAstItem)) (nm : String)
    (makeAlias : Bool) : Except String ParsedClangAstItem :=
  match mapGet decls nm with
  | none => .error ("decl not found " ++ nm)
  | some t => .ok (if makeAlias then aliasDecl t else t)

/-! ## `extractQualTypeOrPtr` (parser.ts lines 228-287)

The static-array branch recurses on the element-type substring, which is
strictly shorter than the input; the recursion is driven by a fuel
parameter initialized to the input length, which therefore never runs
out. -/

/-- The search predicate of the pointer-deduplication lookup (parser.ts
lines 269-274): a pointer declaration with matching constness whose base
type is absent (opaque) or named `ptrBaseName`. -/
def pointerSearchPred (ptrBaseName : String) (is_const : Bool)
    (d : ParsedClangAstItem) : Bool :=
  match d with
  | .pointer _ _ bt c =>
    c = is_const &&
      (match bt with
       | none => true
       | some b0 => b0.name = some ptrBaseName)
  | _ => false

def extractGo (decls : List (String × ParsedClangAstItem)) :
    Nat → String → Except String ParsedClangAstItem
  | fuel, qualType =>
    if jsEndsWith qualType "]" then
      match staticArrayMatch (jsTrim qualType) with
      | none => .error "failed match static array type"
      | some (b, n) =>
        match fuel with
        | 0 => .error "out of fuel"
        | fuel' + 1 =>
          let baseItemName := jsTrim b
          match extractGo decls fuel' baseItemName with
          | .error e => .error e
          | .ok itemType =>
            let len := jsNat n
            .ok (.static_array len (itemType.size * len) qualType itemType)
    else if qualType = "const char *" then
      match findDeclByName decls "CString" false with
      | none => .error "not found CString"
      | some t => .ok t
    else
      match constPtrMatch qualType, ptrMatch qualType with
      | some ptrBaseName, _ =>
        extractPtrCase decls ptrBaseName true
      | none, some ptrBaseName =>
        extractPtrCase decls ptrBaseName false
      | none, none =>
        match findDeclByName decls qualType true with
        | some t => .ok t
        | none => .error ("not found " ++ qualType)

where
  /-- The `isPtr` branch (parser.ts lines 268-284): search for an existing
  pointer declaration with matching constness whose base type is either
  opaque or named `ptrBaseName`; otherwise synthesize an anonymous pointer
  node inline.  The source hardcodes `is_const: true` in the synthesized
  node (line 279) regardless of the matched shape. -/
  extractPtrCase (decls : List (String × ParsedClangAstItem))
      (ptrBaseName : String) (is_const : Bool) :
      Except String ParsedClangAstItem :=
    match findDeclP decls (pointerSearchPred ptrBaseName is_const) true with
    | some found => .ok found
    | none =>
      .ok (.pointer POINTER_SIZE none
        (findDeclByName decls ptrBaseName true) true)

/-- `extractQualTypeOrPtr`, fuel instantiated with the string length. -/
def extractQualTypeOrPtr (decls : List (String × ParsedClangAstItem))
    (qualType : String) : Except String ParsedClangAstItem :=
  extractGo decls qualType.length qualType

/-! ## Enum value expressions (parser.ts lines 647-685) -/

/-- The enum-initializer AST shapes handled by `parseEnumValue`; the
singleton `inner` arrays of the JSON are flattened to the single child. -/
inductive EnumValAst where
  | constantExpr (inner : EnumValAst)
  | integerLiteral (value : String)
  | binaryOperator (opcode : String) (a b : EnumValAst)
  | unaryOperator (opcode : String) (a : EnumValAst)
  | declRefExpr (referencedDeclName : String)
  | parenExpr (inner : EnumValAst)

/-- The rendered text of an `EnumFieldValue`. -/
def EnumFieldValue.value : EnumFieldValue → String
  | .alias v => v
  | .int v => v
  | .expr v => v

/-- `parseEnumValue` (parser.ts lines 647-685).  Unrecognized node kinds
throw in the source; they are not representable in `EnumValAst`. -/
def parseEnumValue : EnumValAst → EnumFieldValue
  | .constantExpr inner => parseEnumValue inner
  | .integerLiteral v => .int v
  | .binaryOperator op a b =>
    .expr ("((" ++ (parseEnumValue a).value ++ ") " ++ op ++ " (" ++
      (parseEnumValue b).value ++ "))")
  | .unaryOperator op a =>
    .expr ("(" ++ op ++ " " ++ (parseEnumValue a).value ++ ")")
  | .declRefExpr n => .alias n
  | .parenExpr a => .expr ("(" ++ (parseEnumValue a).value ++ ")")

/-! ## Enum member resolution (parser.ts lines 313-343) -/

/-- An entry of an `EnumDecl`'s `inner` array. -/
inductive EnumMember where
  | fullComment
  | member (name : String) (init : Option EnumValAst)

/-- The running value `enumValueCounter`:
`undefined`, `"no-counter"`, or a number. -/
inductive EnumCounter where
  | undef
  | noCounter
  | val (n : Nat)

/-- The member loop of the `EnumDecl` branch (parser.ts lines 320-343):
an explicit integer initializer sets the counter to that value (without
incrementing); a non-integer initializer moves the counter to
`"no-counter"`; an implicit member on `"no-counter"` throws, otherwise it
receives the current counter value and then increments it. -/
def resolveEnumMembersGo : List EnumMember → EnumCounter →
    List (String × EnumFieldValue) →
    Except String (List (String × EnumFieldValue))
  | [], _, fields => .ok fields
  | .fullComment :: rest, c, fields => resolveEnumMembersGo rest c fields
  | .member nm (some ast) :: rest, _, fields =>
    let value := parseEnumValue ast
    let c' : EnumCounter :=
      match value with
      | .int v => .val (jsNat v)
      | _ => .noCounter
    resolveEnumMembersGo rest c' (mapSet fields nm value)
  | .member nm none :: rest, c, fields =>
    match c with
    | .noCounter => .error "enum with mixed implicit & explicit declarations"
    | .undef =>
      resolveEnumMembersGo rest (.val 1) (mapSet fields nm (.int (toString 0)))
    | .val n =>
      resolveEnumMembersGo rest (.val (n + 1))
        (mapSet fields nm (.int (toString n)))

/-- Field resolution for a whole enum declaration (counter starts
`undefined`, fields start empty). -/
def resolveEnumMembers (inner : List EnumMember) :
    Except String (List (String × EnumFieldValue)) :=
  resolveEnumMembersGo inner .undef []

/-! ## Declaration emission and lazy aliases (parser.ts lines 126-153) -/

/-- `ParsedClangAstItem_LazyAlias` (parser.ts lines 46-50) without its
constant `type` tag. -/
structure LazyAlias where
  name : String
  aliasTo : String

/-- `emitDecl` (parser.ts lines 134-153): store the item under `nm`
(overwriting silently except for a logged warning), then, if a lazy alias
is registered under the key `nm`, delete it and recursively emit an alias
node under the lazy alias's `name` pointing at the just-emitted item.
Note the pending-alias lookup is keyed by the emitted declaration's name,
which by construction equals the registering typedef's own name. -/
def emitDeclGo : Nat → List (String × ParsedClangAstItem) →
    List (String × LazyAlias) → String → ParsedClangAstItem →
    List (String × ParsedClangAstItem) × List (String × LazyAlias)
  | 0, decls, las, nm, item => (mapSet decls nm item, las)
  | fuel + 1, decls, las, nm, item =>
    let decls' := mapSet decls nm item
    match mapGet las nm with
    | none => (decls', las)
    | some la =>
      emitDeclGo fuel decls' (mapDelete las nm) la.name
        (.alias item.size false (some la.name) item)

/-- `emitDecl` proper.  Each recursive promotion deletes one pending
alias, so a fuel of one more than the number of pending aliases is never
exhausted (the fuel-0 fallback coincides with the no-pending-alias
case, which is the only one reachable there). -/
def emitDecl (decls : List (String × ParsedClangAstItem))
    (las : List (String × LazyAlias)) (nm : String)
    (item : ParsedClangAstItem) :
    List (String × ParsedClangAstItem) × List (String × LazyAlias) :=
  emitDeclGo (las.length + 1) decls las nm item

/-! ## Builtin declarations (parser.ts lines 687-751) -/

/-- `emitSimple` inside `emitBuiltinTypes`. -/
def emitSimple (decls : List (String × ParsedClangAstItem))
    (nm : String) (size : Nat) (ffiType : String) :
    List (String × ParsedClangAstItem) :=
  mapSet decls nm (.builtin size ffiType (some nm))

/-- `emitAlias` inside `emitBuiltinTypes`; the target always exists for
the fixed call sequence below (the source uses a non-null assertion). -/
def emitBuiltinAlias (decls : List (String × ParsedClangAstItem))
    (nm aliasTo : String) (noEmit : Bool) :
    List (String × ParsedClangAstItem) :=
  match mapGet decls aliasTo with
  | some found => mapSet decls nm (.alias found.size noEmit (some nm) found)
  | none => decls

/-- `emitBuiltinTypes` (parser.ts lines 687-751). -/
def builtinDecls : List (String × ParsedClangAstItem) :=
  let d := emitSimple [] "int8_t" 1 "BunFFIType.int8_t"
  let d := emitSimple d "int16_t" 2 "BunFFIType.int16_t"
  let d := emitSimple d "int32_t" 4 "BunFFIType.int32_t"
  let d := emitSimple d "int64_t" 8 "BunFFIType.int64_t"
  let d := emitSimple d "uint8_t" 1 "BunFFIType.uint8_t"
  let d := emitSimple d "uint16_t" 2 "BunFFIType.uint16_t"
  let d := emitSimple d "uint32_t" 4 "BunFFIType.uint32_t"
  let d := emitSimple d "uint64_t" 8 "BunFFIType.uint64_t"
  let d := emitSimple d "size_t" 8 "BunFFIType.uint64_t"
  let d := emitSimple d "ssize_t" 8 "BunFFIType.int64_t"
  let d := emitSimple d "void" 0 "BunFFIType.void"
  let d := emitSimple d "CString" 8 "BunFFIType.cstring"
  let d := emitSimple d "float" 4 "BunFFIType.float"
  let d := emitSimple d "double" 8 "BunFFIType.double"
  let d := emitSimple d "opaque_pointer" POINTER_SIZE "BunFFIType.pointer"
  let d := emitBuiltinAlias d "char" "int8_t" true
  let d := emitBuiltinAlias d "unsigned char" "uint8_t" true
  let d := emitBuiltinAlias d "int" "int32_t" true
  let d := emitBuiltinAlias d "short" "int16_t" true
  let d := emitBuiltinAlias d "unsigned short" "uint16_t" true
  let d := emitBuiltinAlias d "unsigned int" "uint32_t" true
  let d := emitBuiltinAlias d "long" "int64_t" true
  let d := emitBuiltinAlias d "long long" "int64_t" true
  let d := emitBuiltinAlias d "unsigned long long" "uint64_t" true
  let d := emitBuiltinAlias d "unsigned long" "uint64_t" true
  let d := emitBuiltinAlias d "u_int8_t" "uint8_t" false
  let d := emitBuiltinAlias d "u_int16_t" "uint16_t" false
  let d := emitBuiltinAlias d "u_int32_t" "uint32_t" false
  let d := emitBuiltinAlias d "u_int64_t" "uint64_t" false
  let d := emitBuiltinAlias d "__int8_t" "int8_t" false
  let d := emitBuiltinAlias d "__int16_t" "int16_t" false
  let d := emitBuiltinAlias d "__int32_t" "int32_t" false
  let d := emitBuiltinAlias d "__int64_t" "int64_t" false
  d

/-! ## Struct members, unions and function-pointer typedefs -/

/-- An entry of a `RecordDecl`'s `inner` array, after the
anonymous-union trailing-field-name merge (parser.ts lines 386-393) has
supplied the union's name; unnamed fields throw in the source and are
not representable here. -/
inductive StructMemberAst where
  | fullComment
  | fieldDecl (name : String) (qualType : String)
  | unionField (name : String) (variants : List (String × String))

/-- `parseUnionDecl`'s variant loop (parser.ts lines 208-226): each
variant's type resolved by the qualifier grammar, offset fixed at 0,
size taken from the resolved type. -/
def parseUnionVariants (decls : List (String × ParsedClangAstItem)) :
    List (String × String) →
    Except String (List (String × Nat × Nat × ParsedClangAstItem))
  | [] => .ok []
  | (vname, vqual) :: rest =>
    match extractQualTypeOrPtr decls vqual with
    | .error e => .error e
    | .ok t =>
      match parseUnionVariants decls rest with
      | .error e => .error e
      | .ok vs => .ok ((vname, 0, t.size, t) :: vs)

/-- The member loop of the `RecordDecl` branch (parser.ts lines 379-431):
ordinary fields resolve their type by the qualifier grammar and query the
layout oracle for the byte offset; a (named) anonymous union member
additionally queries the oracle for its size via a `sizeof` probe
expression and overrides the union node's size with it. -/
def parseStructFields (decls : List (String × ParsedClangAstItem))
    (sizeOf : String → Nat) (offsetOf : String → String → Nat)
    (structName : String) :
    List StructMemberAst →
    Except String (List (String × Nat × Nat × ParsedClangAstItem))
  | [] => .ok []
  | .fullComment :: rest =>
    parseStructFields decls sizeOf offsetOf structName rest
  | .fieldDecl fname fqual :: rest =>
    match extractQualTypeOrPtr decls fqual with
    | .error e => .error e
    | .ok fieldType =>
      match parseStructFields decls sizeOf offsetOf structName rest with
      | .error e => .error e
      | .ok fs =>
        .ok ((fname, offsetOf structName fname, fieldType.size, fieldType)
          :: fs)
  | .unionField uname variants :: rest =>
    match parseUnionVariants decls variants with
    | .error e => .error e
    | .ok vs =>
      let fieldOffset := offsetOf structName uname
      let fieldSize :=
        sizeOf ("(sizeof ((" ++ structName ++ "*)0)->" ++ uname ++ ")")
      match parseStructFields decls sizeOf offsetOf structName rest with
      | .error e => .error e
      | .ok fs =>
        .ok ((uname, fieldOffset, fieldSize, .union fieldSize none vs) :: fs)

/-- The argument/return-type AST shapes handled by the local
`extractType` of the function-pointer-typedef branch (parser.ts lines
456-491). -/
inductive TypeAst where
  | builtinType (qualType : String)
  | typedefType (declName : String)
  | pointerType (qualType : String)
  | recordType (declName : String)
  | elaboratedType (inner : TypeAst)
  | qualTypeAst (inner : TypeAst)

/-- `extractType` (parser.ts lines 456-491). -/
def extractType (decls : List (String × ParsedClangAstItem)) :
    TypeAst → Except String ParsedClangAstItem
  | .builtinType q => getDecl decls q false
  | .typedefType n => getDecl decls n true
  | .pointerType q =>
    if q = "const char *" then getDecl decls "CString" false
    else extractQualTypeOrPtr decls q
  | .recordType n =>
    match findDeclByName decls n true with
    | some t => .ok t
    | none => .error ("not found " ++ n)
  | .elaboratedType i => extractType decls i
  | .qualTypeAst i => extractType decls i

/-- `extractType` mapped over the argument list (parser.ts lines
494-500). -/
def extractArgTypes (decls : List (String × ParsedClangAstItem)) :
    List (Option String × TypeAst) →
    Except String (List (Option String × ParsedClangAstItem))
  | [] => .ok []
  | (nm, ast) :: rest =>
    match extractType decls ast with
    | .error e => .error e
    | .ok t =>
      match extractArgTypes decls rest with
      | .error e => .error e
      | .ok ts => .ok ((nm, t) :: ts)

/-- JavaScript `s.split("(")[0]`: the prefix before the first `(`. -/
def splitHeadParen (s : String) : String :=
  (s.toList.takeWhile (fun c => ¬ c = '(')).asString

/-- Parameter resolution of the `FunctionDecl` branch (parser.ts lines
547-561); every representable inner item is a `ParmVarDecl`. -/
def extractParams (decls : List (String × ParsedClangAstItem)) :
    List (Option String × String) →
    Except String (List (Option String × ParsedClangAstItem))
  | [] => .ok []
  | (nm, q) :: rest =>
    match extractQualTypeOrPtr decls q with
    | .error e => .error e
    | .ok t =>
      match extractParams decls rest with
      | .error e => .error e
      | .ok ts => .ok ((nm, t) :: ts)

/-! ## The statement loop of `parseClangAst` (parser.ts lines 123-618)

A `Stmt` is one statement of the clang AST dump, classified according to
the branch of the dispatch chain that accepts it (the chain tests
`statement.kind` and structural properties of the node).  Statements
filtered out by `filterStatement` (parser.ts lines 620-645), unnamed
enums without an adopting typedef (logged and skipped), and nodes with
none of the recognized shapes (logged and skipped) do not affect the
result and are omitted from the sequence.  In particular,
`filterStatement` drops every typedef whose name equals the name of the
declaration referenced by its `ElaboratedType` child (parser.ts line
639) — the self-named C idiom `typedef struct Foo Foo;` — before the
dispatch chain runs, so a `typedefFallback` whose name equals its
referenced struct tag corresponds to no real input; no theorem below
instantiates that shape.  The layout oracle (`clangGetSizeOf` /
`clangGetOffsetOf`) is passed as a pair of pure functions. -/

inductive Stmt where
  /-- `EnumDecl` with a name (parser.ts lines 298-348). -/
  | enumDecl (name : String) (inner : List EnumMember)
  /-- `TypedefDecl` with `type.typeAliasDeclId` (lines 351-366). -/
  | typedefAliasDecl (name : String) (qualType : String)
  /-- `RecordDecl` (lines 369-441). -/
  | recordDecl (name : String) (inner : Option (List StructMemberAst))
  /-- `TypedefDecl` of pointer-to-function-prototype shape
  (lines 444-521). -/
  | funcPointerTypedef (name : String) (returnTypeAst : TypeAst)
      (argsAst : List (Option String × TypeAst))
  /-- `TypedefDecl` whose `type.qualType` ends in `" *"` (lines
  524-538). -/
  | opaquePointerTypedef (name : String)
  /-- `FunctionDecl` (lines 541-571); `signature` is
  `statement.type.qualType`. -/
  | functionDecl (name : String) (signature : String)
      (params : List (Option String × String))
  /-- Any other `TypedefDecl` (fallback, lines 589-611). -/
  | typedefFallback (name : String) (qualType : String)

/-- `ParsedClangAstResult` (parser.ts lines 117-121). -/
structure ParsedClangAstResult where
  decls : List (String × ParsedClangAstItem)
  ptrTypeSymbols : List String
  funcTypeSymbols : List String

/-- The resolver's full mutable state: the result under construction and
the pending lazy aliases. -/
structure ResolverState where
  decls : List (String × ParsedClangAstItem)
  lazyAliases : List (String × LazyAlias)
  ptrTypeSymbols : List String
  funcTypeSymbols : List String

/-- One iteration of the statement loop. -/
def parseStmt (sizeOf : String → Nat) (offsetOf : String → String → Nat)
    (s : ResolverState) : Stmt → Except String ResolverState
  | .enumDecl nm inner =>
    match resolveEnumMembers inner with
    | .error e => .error e
    | .ok fields =>
      let (decls, las) :=
        emitDecl s.decls s.lazyAliases nm (.enum 4 (some nm) fields)
      .ok { s with decls := decls, lazyAliases := las }
  | .typedefAliasDecl nm aliasTo =>
    match getDecl s.decls aliasTo false with
    | .error e => .error e
    | .ok aliasToType =>
      let (decls, las) := emitDecl s.decls s.lazyAliases nm
        (.alias aliasToType.size false (some nm) aliasToType)
      .ok { s with decls := decls, lazyAliases := las }
  | .recordDecl _ none => .ok s
  | .recordDecl nm (some inner) =>
    let structSize := sizeOf nm
    match parseStructFields s.decls sizeOf offsetOf nm inner with
    | .error e => .error e
    | .ok fields =>
      let (decls, las) := emitDecl s.decls s.lazyAliases nm
        (.struct structSize (some nm) fields)
      .ok { s with decls := decls, lazyAliases := las }
  | .funcPointerTypedef nm retAst argsAst =>
    match extractType s.decls retAst with
    | .error e => .error e
    | .ok returnType =>
      match extractArgTypes s.decls argsAst with
      | .error e => .error e
      | .ok args =>
        let (decls, las) := emitDecl s.decls s.lazyAliases nm
          (.func_pointer POINTER_SIZE (some nm)
            (.func_decl POINTER_SIZE (some nm) returnType args))
        .ok { decls := decls, lazyAliases := las,
              ptrTypeSymbols := setAdd s.ptrTypeSymbols nm,
              funcTypeSymbols := setAdd s.funcTypeSymbols nm }
  | .opaquePointerTypedef nm =>
    let (decls, las) := emitDecl s.decls s.lazyAliases nm
      (.pointer POINTER_SIZE (some nm) none false)
    .ok { s with decls := decls, lazyAliases := las }
  | .functionDecl nm signature params =>
    match extractQualTypeOrPtr s.decls (jsTrim (splitHeadParen signature)) with
    | .error e => .error e
    | .ok returnType =>
      match extractParams s.decls params with
      | .error e => .error e
      | .ok args =>
        let (decls, las) := emitDecl s.decls s.lazyAliases nm
          (.func_decl POINTER_SIZE none returnType args)
        .ok { s with decls := decls, lazyAliases := las }
  | .typedefFallback nm qualType =>
    match extractQualTypeOrPtr s.decls qualType with
    | .ok aliasType =>
      let (decls, las) := emitDecl s.decls s.lazyAliases nm
        (.alias aliasType.size false (some nm) aliasType)
      .ok { s with decls := decls, lazyAliases := las }
    | .error _ =>
      if jsStartsWith qualType "struct " then
        let las := mapSet s.lazyAliases nm (LazyAlias.mk nm (jsDrop qualType 7))
        .ok { s with lazyAliases := las }
      else
        .ok s

/-- The statement loop folded over the input sequence. -/
def parseStmts (sizeOf : String → Nat) (offsetOf : String → String → Nat) :
    List Stmt → ResolverState → Except String ResolverState
  | [], s => .ok s
  | st :: rest, s =>
    match parseStmt sizeOf offsetOf s st with
    | .error e => .error e
    | .ok s' => parseStmts sizeOf offsetOf rest s'

/-- `parseClangAst` (parser.ts lines 123-618): emit the builtins, run the
statement loop, return the result (`lazyAliases` is resolver-internal
state and is discarded, resolved or not, at line 617). -/
def parseClangAst (astJson : List Stmt) (sizeOf : String → Nat)
    (offsetOf : String → String → Nat) :
    Except String ParsedClangAstResult :=
  match parseStmts sizeOf offsetOf astJson
      { decls := builtinDecls, lazyAliases := [],
        ptrTypeSymbols := [], funcTypeSymbols := [] } with
  | .error e => .error e
  | .ok s =>
    .ok { decls := s.decls, ptrTypeSymbols := s.ptrTypeSymbols,
          funcTypeSymbols := s.funcTypeSymbols }

/-! ## Code generation (`gen.ts`) -/

/-- `_mapFFITypeToTS` (gen.ts lines 14-33). -/
def mapFFITypeToTSTable : List (String × String) := [
  ("BunFFIType.int8_t", "number"),
  ("BunFFIType.int16_t", "number"),
  ("BunFFIType.int32_t", "number"),
  ("BunFFIType.int64_t", "bigint | number"),
  ("BunFFIType.uint8_t", "number"),
  ("BunFFIType.uint16_t", "number"),
  ("BunFFIType.uint32_t", "number"),
  ("BunFFIType.uint64_t", "bigint | number"),
  ("BunFFIType.void", "void"),
  ("BunFFIType.cstring", "BunCString"),
  ("BunFFIType.float", "number"),
  ("BunFFIType.double", "number"),
  ("BunFFIType.pointer", "Pointer")]

/-- `_mapFFITypeToReadFn` (gen.ts lines 35-52). -/
def mapFFITypeToReadFnTable : List (String × String) := [
  ("BunFFIType.int8_t", "i8"),
  ("BunFFIType.int16_t", "i16"),
  ("BunFFIType.int32_t", "i32"),
  ("BunFFIType.int64_t", "i64"),
  ("BunFFIType.uint8_t", "u8"),
  ("BunFFIType.uint16_t", "u16"),
  ("BunFFIType.uint32_t", "u32"),
  ("BunFFIType.uint64_t", "u64"),
  ("BunFFIType.cstring", "ptr"),
  ("BunFFIType.float", "f32"),
  ("BunFFIType.double", "f64"),
  ("BunFFIType.pointer", "ptr")]

/-- `CodeGen.mapFFITypeToTS` (gen.ts lines 131-136). -/
def mapFFITypeToTS (ffiType : String) : Except String String :=
  match mapGet mapFFITypeToTSTable ffiType with
  | some t => .ok t
  | none => .error "unknown ffiType"

/-- `CodeGen.mapFFITypeToReadFn` (gen.ts lines 138-143). -/
def mapFFITypeToReadFn (ffiType : String) : Except String String :=
  match mapGet mapFFITypeToReadFnTable ffiType with
  | some t => .ok t
  | none => .error "unknown ffiType"

/-- `GenOpts` (gen.ts lines 54-67) with the constructor's defaults
(lines 82-102); the pluggable `funcSymbolsImportLibPathCode` strategy is
modeled by its default implementation below. -/
structure GenOpts where
  identWidth : Nat := 4
  readers : Bool := true
  writers : Bool := true
  helpers : Bool := true
  funcDeclTypes : Bool := false
  throwOnErrors : Bool := false
  funcSymbolsImport : Bool := true
  funcWrappers : Bool := true
  structSizes : Bool := false
  structAllocs : Bool := true
  funcSymbolsImportLibPath : String := "import.meta.dir + \"/mylib\""

/-- `CodeGen.writeLn` (gen.ts lines 127-129). -/
def writeLn (opts : GenOpts) (out : List String) (str : String)
    (padding : Nat) : List String :=
  out ++ [String.join (List.replicate (opts.identWidth * padding) " ")
    ++ str ++ "\n"]

/-- The template literal of `inlineFuncDeclFFIType` (gen.ts lines
377-382); the argument list is rendered with JavaScript's
comma-without-space array stringification. -/
def ffiDeclTemplate (returnsCode : String) (argsCode : List String) :
    String :=
  "\x7b\n            returns: " ++ returnsCode ++
    ",\n            args: [ " ++ String.intercalate "," argsCode ++
    " ],\n        \x7d"

mutual

/-- `CodeGen.getFFIType` (gen.ts lines 210-229); the `func_decl` case
inlines `inlineFuncDeclFFIType`. -/
def getFFIType : ParsedClangAstItem → Except String String
  | .alias _ _ _ target => getFFIType target
  | .builtin _ ffi _ => .ok ffi
  | .enum _ _ _ => .ok "BunFFIType.int32_t"
  | .func_decl _ _ ret args =>
    match getFFIType ret with
    | .error e => .error e
    | .ok r =>
      match argsFFITypes args with
      | .error e => .error e
      | .ok as_ => .ok (ffiDeclTemplate r as_)
  | .func_pointer _ _ _ => .ok "BunFFIType.pointer"
  | .pointer _ _ _ _ => .ok "BunFFIType.pointer"
  | .struct _ _ _ => .error "no ffi type for structs"
  | _ => .error "unknown ast type"

/-- `getFFIType` mapped over a `func_decl`'s arguments. -/
def argsFFITypes :
    List (Option String × ParsedClangAstItem) → Except String (List String)
  | [] => .ok []
  | (_, t) :: rest =>
    match getFFIType t with
    | .error e => .error e
    | .ok x =>
      match argsFFITypes rest with
      | .error e => .error e
      | .ok xs => .ok (x :: xs)

end

/-- The body line(s) of the writer emitted for a builtin: the `switch`
of `CodeGen.generateBuiltin` (gen.ts lines 256-299). -/
def builtinWriterBody (ffiType : String) : Except String (List String) :=
  if ffiType = "BunFFIType.int8_t" then
    .ok ["buffer.writeInt8(x || 0, offset);"]
  else if ffiType = "BunFFIType.int16_t" then
    .ok ["buffer.writeInt16LE(x || 0, offset);"]
  else if ffiType = "BunFFIType.int32_t" then
    .ok ["buffer.writeInt32LE(x || 0, offset);"]
  else if ffiType = "BunFFIType.int64_t" then
    .ok ["buffer.writeBigInt64LE(BigInt(x || 0), offset);"]
  else if ffiType = "BunFFIType.uint8_t" then
    .ok ["buffer.writeUint8(x || 0, offset);"]
  else if ffiType = "BunFFIType.uint16_t" then
    .ok ["buffer.writeUint16LE(x || 0, offset);"]
  else if ffiType = "BunFFIType.uint32_t" then
    .ok ["buffer.writeUint32LE(x || 0, offset);"]
  else if ffiType = "BunFFIType.uint64_t" then
    .ok ["buffer.writeBigUint64LE(BigInt(x || 0), offset);"]
  else if ffiType = "BunFFIType.string" then
    .ok ["buffer.writeBigUint64LE(BigInt(x.ptr), offset);"]
  else if ffiType = "BunFFIType.float" then
    .ok ["buffer.writeFloatLE(x, offset);"]
  else if ffiType = "BunFFIType.double" then
    .ok ["buffer.writeDoubleLE(x, offset);"]
  else if ffiType = "BunFFIType.pointer" then
    .ok ["if (x && typeof x === \"object\" && \"BYTES_PER_ELEMENT\" in x) x = bunPtr(x);",
         "buffer.writeBigUint64LE(BigInt(x || 0), offset);"]
  else if ffiType = "BunFFIType.cstring" then
    .ok ["buffer.writeBigUint64LE(BigInt(x.ptr || 0), offset);"]
  else .error "unknown ffi type"

/-- `CodeGen.generateBuiltin` (gen.ts lines 231-302): when the mapped
host-language type string equals the declared name, return immediately
(nothing is appended, not even a reader or writer); otherwise emit a type
alias, then a reader when `opts.readers`, then a writer when
`opts.writers`. -/
def generateBuiltin (opts : GenOpts) (out : List String) (nm : String)
    (ffiType : String) : Except String (List String) :=
  match mapFFITypeToTS ffiType with
  | .error e => .error e
  | .ok tsType =>
    if tsType = nm then .ok out
    else
      let out := writeLn opts out
        ("export type " ++ nm ++ " = " ++ tsType ++ ";") 0
      let readersOut : Except String (List String) :=
        if opts.readers then
          let out := writeLn opts out
            ("export function read_" ++ nm ++
              "(from: BunPointer, offset: number): " ++ tsType ++ " \x7b") 0
          if ffiType = "BunFFIType.cstring" then
            .ok (writeLn opts (writeLn opts out
              "return new BunCString(bunRead.ptr(from, offset));" 1) "\x7d" 0)
          else
            match mapFFITypeToReadFn ffiType with
            | .error e => .error e
            | .ok readFn =>
              .ok (writeLn opts (writeLn opts out
                ("return bunRead." ++ readFn ++ "(from, offset);") 1) "\x7d" 0)
        else .ok out
      match readersOut with
      | .error e => .error e
      | .ok out =>
        if opts.writers then
          let argType :=
            if nm = "opaque_pointer" then tsType ++ " | TypedArrayPtr<any>"
            else tsType
          let out := writeLn opts out
            ("export function write_" ++ nm ++ "(x: " ++ argType ++
              ", buffer: Buffer, offset: number) \x7b") 0
          match builtinWriterBody ffiType with
          | .error e => .error e
          | .ok body =>
            .ok (writeLn opts (body.foldl (fun o l => writeLn opts o l 1) out)
              "\x7d" 0)
        else .ok out

/-- Byte `j` of the little-endian encoding of `v`. -/
def byteOf (v j : Nat) : Nat := v / 256 ^ j % 256

/-- A byte store. -/
def ByteStore : Type := Nat → Nat

/-- The store of `Buffer.alloc(n)`: all zeroes. -/
def zeroStore : ByteStore := fun _ => 0

/-- Write `width` little-endian bytes of `v` at `off`
(the generated `buffer.write*LE(v, off)` statements). -/
def writeBytesLE (b : ByteStore) (off width v : Nat) : ByteStore :=
  fun i => if off ≤ i ∧ i < off + width then byteOf v (i - off) else b i

/-- Read `width` little-endian bytes at `off`
(the generated `bunRead.*(from, off)` calls of the struct reader). -/
def readBytesLE (b : ByteStore) (off width : Nat) : Nat :=
  ((List.range width).map (fun j => b (off + j) * 256 ^ j)).sum

/-- A scalar struct field layout: name, byte offset, byte width. -/
structure FieldLayout where
  name : String
  offset : Nat
  width : Nat

/-- The body of the generated struct writer at base offset `base`: one
presence-guarded field write per field, in field order. -/
def writeStructFields (fields : List FieldLayout)
    (x : String → Option Nat) (b : ByteStore) (base : Nat) : ByteStore :=
  match fields with
  | [] => b
  | f :: rest =>
    let b' :=
      match x f.name with
      | some v => writeBytesLE b (base + f.offset) f.width v
      | none => b
    writeStructFields rest x b' base

/-- The generated allocator called without a caller-supplied buffer:
`Buffer.alloc(size)` then `write_T(x, buffer, 0)`; returns the buffer
(its length and its byte store). -/
def allocStruct (size : Nat) (fields : List FieldLayout)
    (x : String → Option Nat) : Nat × ByteStore :=
  (size, writeStructFields fields x zeroStore 0)

/-- Two byte regions are disjoint. -/
def RegionsDisjoint (o1 w1 o2 w2 : Nat) : Prop :=
  o1 + w1 ≤ o2 ∨ o2 + w2 ≤ o1

/-- A field's region lies inside the struct. -/
def FieldInBounds (size : Nat) (f : FieldLayout) : Prop :=
  f.offset + f.width ≤ size

/-! ## General lemmas about the map embedding -/

theorem mapGet_cons_eq {α : Type} (p : String × α) (m : List (String × α))
    (k : String) (h : p.1 = k) : mapGet (p :: m) k = some p.2 := by
  unfold mapGet
  rw [List.find?_cons_of_pos _ (by simpa using h)]
  rfl

theorem mapGet_cons_ne {α : Type} (p : String × α) (m : List (String × α))
    (k : String) (h : ¬ p.1 = k) : mapGet (p :: m) k = mapGet m k := by
  unfold mapGet
  rw [List.find?_cons_of_neg _ (by simpa using h)]

theorem mapGet_eq_none_of_mapHas {α : Type} (m : List (String × α))
    (k : String) (h : mapHas m k = false) : mapGet m k = none := by
  induction m with
  | nil => rfl
  | cons p rest ih =>
    unfold mapHas at h
    simp only [List.any_cons, Bool.or_eq_false_iff] at h
    rw [mapGet_cons_ne _ _ _ (by simpa using h.1)]
    exact ih (by unfold mapHas; exact h.2)

theorem mapSet_of_mapHas_false {α : Type} (m : List (String × α))
    (k : String) (v : α) (h : mapHas m k = false) :
    mapSet m k v = m ++ [(k, v)] := by
  unfold mapSet
  rw [if_neg]
  unfold mapHas at h
  simp [h]

theorem mapGet_append_right {α : Type} (m m' : List (String × α))
    (k : String) (h : mapGet m k = none) :
    mapGet (m ++ m') k = mapGet m' k := by
  induction m with
  | nil => rfl
  | cons p rest ih =>
    by_cases hk : p.1 = k
    · rw [mapGet_cons_eq _ _ _ hk] at h
      cases h
    · rw [mapGet_cons_ne _ _ _ hk] at h
      rw [List.cons_append, mapGet_cons_ne _ _ _ hk]
      exact ih h

theorem mapSet_append_last {α : Type} (m : List (String × α))
    (k : String) (v w : α) (h : mapHas m k = false) :
    mapSet (m ++ [(k, v)]) k w = m ++ [(k, w)] := by
  unfold mapSet
  rw [if_pos]
  · induction m with
    | nil => simp
    | cons p rest ih =>
      unfold mapHas at h
      simp only [List.any_cons, Bool.or_eq_false_iff] at h
      have hp : ¬ p.1 = k := by simpa using h.1
      simp only [List.cons_append, List.map_cons, if_neg hp]
      have := ih (by unfold mapHas; exact h.2)
      simp only [List.cons_append] at this ⊢
      rw [this]
  · simp

/-! ## Claim C1 — enum implicit counter after an explicit integer

Spec and C-language intent: `[A, B, C=10, D]` resolves to
`A=0, B=1, C=10, D=11`.  The source (parser.ts lines 324-342) sets the
running counter *to* the explicit value without incrementing past it, so
the next implicit member receives the explicit value itself. -/

/-- C1: evaluating the member loop on `[A, B, C=10, D]` assigns `D = 10`,
not `D = 11` as both the spec and C enumeration semantics require: after
an explicit integer initializer the counter is set to that value and the
following implicit member reads it before the post-increment. -/
theorem C1_enum_counter_eval :
    resolveEnumMembers
      [.member "A" none, .member "B" none,
       .member "C" (some (.integerLiteral "10")), .member "D" none] =
    .ok [("A", .int "0"), ("B", .int "1"), ("C", .int "10"),
         ("D", .int "10")] := by rfl

/-! ## Claim C4 — non-const pointer shape and `is_const`

The dedup search (parser.ts lines 269-274) does use `is_const = false`
for the non-const shape, but the inline-synthesized node (lines 277-283)
hardcodes `is_const: true`.  Also note the greedy capture keeps the
trailing space (`"Foo "`), so the base-type registry lookup misses. -/

/-- C4: `"Foo *"` matches the non-const pointer shape (the const rule
does not match), yet with no reusable pointer declaration in the
registry the synthesized node carries `is_const = true`, contradicting
the claim that the qualifier grammar returns `is_const = false` in the
synthesized case. -/
theorem C4_nonconst_shape_synthesizes_const :
    constPtrMatch "Foo *" = none ∧
    ptrMatch "Foo *" = some "Foo " ∧
    extractQualTypeOrPtr builtinDecls "Foo *" =
      .ok (.pointer 8 none none true) := by
  refine ⟨rfl, rfl, rfl⟩

/-! ## Claims C2 and C7 — lazy-alias lifecycle

The pending-alias map is keyed by the registering typedef's *own* name
(parser.ts line 604), and promotion fires only when a declaration under
that key is emitted (line 142) — never when the target struct tag is
declared.  The self-named idiom `typedef struct Foo Foo;`, the one form
whose tag declaration would carry the typedef's key, is removed by
`filterStatement` (line 639) before the dispatch chain, so a pending
alias to a later-declared tag is never promoted.  At end of input
(line 617) the result is returned with any pending aliases still
unresolved: there is no dangling-reference check. -/

/-- `emitDecl` with no pending alias under the emitted name just stores
the item. -/
theorem emitDecl_no_pending (decls : List (String × ParsedClangAstItem))
    (las : List (String × LazyAlias)) (nm : String)
    (item : ParsedClangAstItem) (h : mapGet las nm = none) :
    emitDecl decls las nm item = (mapSet decls nm item, las) := by
  unfold emitDecl
  simp only [emitDeclGo, h]

/-- C2 (counterexample): a typedef registering a lazy alias to the tag
`Foo`, never declared afterwards, does not abort resolution: the parse
returns successfully and the typedef's name is simply absent from the
returned declaration map. -/
theorem C2_counterexample :
    parseClangAst [.typedefFallback "T" "struct Foo"]
      (fun _ => 0) (fun _ _ => 0) =
      .ok (ParsedClangAstResult.mk builtinDecls [] []) ∧
    mapGet builtinDecls "T" = none := ⟨rfl, rfl⟩

/-- C2 (amended): for any typedef whose target string has the `struct `
prefix but fails qualifier-grammar resolution, and whose name is not
otherwise declared, resolution completes without error and silently
drops the pending alias: the returned map has no entry under the
typedef's name. -/
theorem C2_amended (T q : String) (sizeOf : String → Nat)
    (offsetOf : String → String → Nat)
    (hq : jsStartsWith q "struct " = true)
    (hx : (extractQualTypeOrPtr builtinDecls q).isOk = false)
    (hT : mapHas builtinDecls T = false) :
    parseClangAst [.typedefFallback T q] sizeOf offsetOf =
      .ok (ParsedClangAstResult.mk builtinDecls [] []) ∧
    mapGet builtinDecls T = none := by
  refine ⟨?_, mapGet_eq_none_of_mapHas _ _ hT⟩
  cases hE : extractQualTypeOrPtr builtinDecls q with
  | ok t => rw [hE] at hx; simp [Except.isOk, Except.toBool] at hx
  | error e =>
    simp [parseClangAst, parseStmts, parseStmt, hE, hq]

/-- C2 (witness): the amended statement at the concrete dangling input
`typedef struct Foo T;`. -/
theorem C2_amended_witness :
    parseClangAst [.typedefFallback "T" "struct Foo"]
      (fun _ => 0) (fun _ _ => 0) =
      .ok (ParsedClangAstResult.mk builtinDecls [] []) ∧
    mapGet builtinDecls "T" = none :=
  C2_amended "T" "struct Foo" (fun _ => 0) (fun _ _ => 0) rfl rfl rfl

/-- C7 (counterexample): `typedef struct Foo T;` followed by the
declaration of `struct Foo` does *not* leave an alias under `T`: the
pending alias is keyed by the typedef's own name `T`, so emitting `Foo`
never promotes it, and `T` is absent from the returned map (the claim
expects `T ↦ alias to the struct's node`). -/
theorem C7_counterexample :
    parseClangAst
      [.typedefFallback "T" "struct Foo", .recordDecl "Foo" (some [])]
      (fun _ => 12) (fun _ _ => 0) =
      .ok (ParsedClangAstResult.mk
        (builtinDecls ++ [("Foo", .struct 12 (some "Foo") [])]) [] []) ∧
    mapGet (builtinDecls ++ [("Foo", .struct 12 (some "Foo") [])]) "T" =
      none := ⟨rfl, rfl⟩

/-- C7 (amended): promotion of a pending lazy alias is keyed by the
typedef's own name, and the only typedef-to-later-tag form that reaches
the resolver has a name different from the tag (`filterStatement` drops
the self-named form, parser.ts line 639).  For every such input the
tag's later declaration does not promote the pending alias: resolution
succeeds, the struct is stored under its tag, and nothing is stored
under the typedef's name — the pending alias is silently dropped. -/
theorem C7_amended (T q F : String) (sizeOf : String → Nat)
    (offsetOf : String → String → Nat)
    (hq : jsStartsWith q "struct " = true)
    (hx : (extractQualTypeOrPtr builtinDecls q).isOk = false)
    (hT : mapHas builtinDecls T = false)
    (hF : mapHas builtinDecls F = false)
    (hTF : ¬ T = F) :
    parseClangAst [.typedefFallback T q, .recordDecl F (some [])]
      sizeOf offsetOf =
      .ok (ParsedClangAstResult.mk
        (builtinDecls ++ [(F, .struct (sizeOf F) (some F) [])]) [] []) ∧
    mapGet (builtinDecls ++ [(F, .struct (sizeOf F) (some F) [])]) T =
      none := by
  constructor
  · cases hE : extractQualTypeOrPtr builtinDecls q with
    | ok t => rw [hE] at hx; simp [Except.isOk, Except.toBool] at hx
    | error e =>
      have hla : mapGet [(T, LazyAlias.mk T (jsDrop q 7))] F = none := by
        rw [mapGet_cons_ne _ _ _ (by simpa using hTF)]
        rfl
      have hemit := emitDecl_no_pending builtinDecls
        [(T, LazyAlias.mk T (jsDrop q 7))] F
        (.struct (sizeOf F) (some F) []) hla
      rw [mapSet_of_mapHas_false _ _ _ hF] at hemit
      simp [parseClangAst, parseStmts, parseStmt, hE, hq,
        parseStructFields, mapSet, hemit]
  · rw [mapGet_append_right _ _ _ (mapGet_eq_none_of_mapHas _ _ hT)]
    rw [mapGet_cons_ne _ _ _ (by simpa using fun h => hTF h.symm)]
    rfl

/-- C7 (witness): the amended statement at the concrete realizable
input `typedef struct Foo T; struct Foo { };` with oracle size 12. -/
theorem C7_amended_witness :
    parseClangAst
      [.typedefFallback "T" "struct Foo", .recordDecl "Foo" (some [])]
      (fun _ => 12) (fun _ _ => 0) =
      .ok (ParsedClangAstResult.mk
        (builtinDecls ++ [("Foo", .struct 12 (some "Foo") [])]) [] []) ∧
    mapGet (builtinDecls ++ [("Foo", .struct 12 (some "Foo") [])]) "T" =
      none :=
  C7_amended "T" "struct Foo" "Foo" (fun _ => 12) (fun _ _ => 0)
    rfl rfl rfl rfl (by decide)

/-! ## Claim C3 — pointer deduplication

The dedup search (parser.ts lines 269-274) runs over the *registered*
declarations only; a synthesized pointer node (lines 277-283) is
anonymous and never registered, so a second occurrence of the same
qualified-type string synthesizes again instead of reusing it. -/

/-- C3 (counterexample): with `struct Foo` registered but no pointer
declaration in the registry, a field typed `"const Foo *"` resolves to a
freshly synthesized *anonymous* pointer node (`name = none`); a second
field of the same type repeats the synthesis.  No named registered
pointer node is produced, refuting the claim for this registry. -/
theorem C3_counterexample :
    extractQualTypeOrPtr
      (builtinDecls ++ [("Foo", .struct 12 (some "Foo") [])])
      "const Foo *" =
      .ok (.pointer 8 none
        (some (.alias 12 false (some "Foo") (.struct 12 (some "Foo") [])))
        true) ∧
    (ParsedClangAstItem.pointer 8 none
        (some (.alias 12 false (some "Foo") (.struct 12 (some "Foo") [])))
        true).name = none := ⟨rfl, rfl⟩

/-- C3 (amended): deduplication happens exactly when the registry
already holds a matching pointer declaration.  If the first registered
declaration satisfying the search predicate (matching constness, opaque
or matching base-type name) is `p`, then the qualifier grammar resolves
the const-pointer string to `aliasDecl p.2` — and two struct fields with
that same type string, resolved against the same registry, both receive
that same node. -/
theorem C3_amended (decls : List (String × ParsedClangAstItem))
    (q b : String) (p : String × ParsedClangAstItem)
    (hq1 : jsEndsWith q "]" = false)
    (hq2 : ¬ q = "const char *")
    (hq3 : constPtrMatch q = some b)
    (hfind : decls.find? (fun e => pointerSearchPred b true e.2) = some p) :
    extractQualTypeOrPtr decls q = .ok (aliasDecl p.2) ∧
    (∀ (sizeOf : String → Nat) (offsetOf : String → String → Nat)
      (sn fn1 fn2 : String),
      parseStructFields decls sizeOf offsetOf sn
        [.fieldDecl fn1 q, .fieldDecl fn2 q] =
      .ok [(fn1, offsetOf sn fn1, (aliasDecl p.2).size, aliasDecl p.2),
           (fn2, offsetOf sn fn2, (aliasDecl p.2).size, aliasDecl p.2)]) := by
  have h1 : extractQualTypeOrPtr decls q = .ok (aliasDecl p.2) := by
    unfold extractQualTypeOrPtr
    rw [extractGo]
    rw [if_neg (by simp [hq1])]
    rw [if_neg hq2]
    rw [hq3]
    simp [extractGo.extractPtrCase, findDeclP, hfind]
  refine ⟨h1, fun sizeOf offsetOf sn fn1 fn2 => ?_⟩
  simp [parseStructFields, h1]

/-- The registry of the C3 witness: the builtins plus one registered
named const pointer over base `Foo`. -/
def fooPtrItem : ParsedClangAstItem :=
  .pointer 8 (some "FooPtr") (some (.struct 12 (some "Foo") [])) true

def fooPtrRegistry : List (String × ParsedClangAstItem) :=
  builtinDecls ++ [("FooPtr", fooPtrItem)]

/-- C3 (witness): the amended statement with the registered named const
pointer `FooPtr` over base `Foo`; both fields resolve to the alias of
that registered node. -/
theorem C3_amended_witness :
    extractQualTypeOrPtr fooPtrRegistry "const Foo *" =
      .ok (aliasDecl fooPtrItem) ∧
    (∀ (sizeOf : String → Nat) (offsetOf : String → String → Nat)
      (sn fn1 fn2 : String),
      parseStructFields fooPtrRegistry sizeOf offsetOf sn
        [.fieldDecl fn1 "const Foo *", .fieldDecl fn2 "const Foo *"] =
      .ok [(fn1, offsetOf sn fn1, (aliasDecl fooPtrItem).size,
              aliasDecl fooPtrItem),
           (fn2, offsetOf sn fn2, (aliasDecl fooPtrItem).size,
              aliasDecl fooPtrItem)]) :=
  C3_amended fooPtrRegistry "const Foo *" "Foo" ("FooPtr", fooPtrItem)
    rfl (by decide) rfl rfl

/-! ## Claim C10 — the self-named builtin emits nothing -/

/-- C10: whenever the mapped host-language type string equals the
declared name, `generateBuiltin` returns the output buffer unchanged for
*every* option set (in particular with readers and writers enabled): the
early return fires before any fragment, reader or writer is emitted.
Moreover, over the shipped builtin set, the mapped type string equals
the declared name exactly for `"void"`. -/
theorem C10_selfnamed_builtin_emits_nothing :
    (∀ (opts : GenOpts) (out : List String) (nm ffiType : String),
      mapFFITypeToTS ffiType = .ok nm →
      generateBuiltin opts out nm ffiType = .ok out) ∧
    builtinDecls.all (fun p =>
      match p.2 with
      | .builtin _ ffi _ =>
        ((mapFFITypeToTS ffi).toOption == some p.1) == (p.1 == "void")
      | _ => true) = true := by
  constructor
  · intro opts out nm ffi hmap
    unfold generateBuiltin
    rw [hmap]
    simp
  · rfl

/-- C10 (witness): on the shipped `void` builtin, with the default
options (readers and writers on), nothing is appended. -/
theorem C10_witness :
    generateBuiltin {} [] "void" "BunFFIType.void" = .ok [] :=
  C10_selfnamed_builtin_emits_nothing.1 {} [] "void" "BunFFIType.void" rfl

/-! ## Host-language type rendering (gen.ts lines 384-423)

`inlineTsType` returns a named node's name immediately (the JS
`if (d.name) return d.name;` — names are never the empty string);
otherwise it renders by variant, inlining `inlineTsPointerType` and, for
function nodes, `inlineFuncDeclType` (defined standalone below with the
same body).  Unnamed structs and enums throw `"no ts type found"`, and
the `default` arm throws `"unknown ast type"` — in particular for the
unnamed `union` nodes that anonymous-union struct fields carry. -/

mutual

def inlineTsType : ParsedClangAstItem → Except String String
  | .enum _ nm _ =>
    match nm with
    | some n => .ok n
    | none => .error "no ts type found"
  | .alias _ _ nm target =>
    match nm with
    | some n => .ok n
    | none => inlineTsType target
  | .lazy_alias nm _ => .ok nm
  | .pointer _ nm bt c =>
    match nm with
    | some n => .ok n
    | none =>
      match bt with
      | none => .ok "Pointer"
      | some base =>
        match inlineTsType base with
        | .error e => .error e
        | .ok innerT =>
          .ok (if c then "ConstPtrT<" ++ innerT ++ ">"
               else "PtrT<" ++ innerT ++ ">")
  | .builtin _ ffi nm =>
    match nm with
    | some n => .ok n
    | none => mapFFITypeToTS ffi
  | .func_decl _ nm ret args =>
    match nm with
    | some n => .ok n
    | none =>
      match inlineTsType ret with
      | .error e => .error e
      | .ok returnType =>
        match inlineTsArgs 0 args with
        | .error e => .error e
        | .ok argStrs =>
          .ok ("(" ++ String.intercalate ", " argStrs ++ ") => " ++
            returnType)
  | .func_pointer _ nm decl =>
    match nm with
    | some n => .ok n
    | none =>
      match decl with
      | .func_decl _ _ ret args =>
        match inlineTsType ret with
        | .error e => .error e
        | .ok returnType =>
          match inlineTsArgs 0 args with
          | .error e => .error e
          | .ok argStrs =>
            .ok ("(" ++ String.intercalate ", " argStrs ++ ") => " ++
              returnType)
      | _ => .error "unknown ast type"
  | .struct _ nm _ =>
    match nm with
    | some n => .ok n
    | none => .error "no ts type found"
  | .static_array _ _ n _ => .ok n
  | .union _ nm _ =>
    match nm with
    | some n => .ok n
    | none => .error "unknown ast type"

/-- The argument list of `inlineFuncDeclType` (gen.ts line 421); a
missing (or, in JS, empty) argument name falls back to `arg<i>`. -/
def inlineTsArgs (i : Nat) :
    List (Option String × ParsedClangAstItem) →
    Except String (List String)
  | [] => .ok []
  | (nm, t) :: rest =>
    match inlineTsType t with
    | .error e => .error e
    | .ok ts =>
      match inlineTsArgs (i + 1) rest with
      | .error e => .error e
      | .ok xs =>
        .ok (((match nm with
               | some n => n
               | none => "arg" ++ toString i) ++ ": " ++ ts) :: xs)

end

instance (s : Nat) (f : FieldLayout) : Decidable (FieldInBounds s f) :=
  inferInstanceAs (Decidable (f.offset + f.width ≤ s))

instance (o1 w1 o2 w2 : Nat) : Decidable (RegionsDisjoint o1 w1 o2 w2) :=
  inferInstanceAs (Decidable (_ ∨ _))

theorem RegionsDisjoint.shiftBase {o1 w1 o2 w2 : Nat} (base : Nat)
    (h : RegionsDisjoint o1 w1 o2 w2) :
    RegionsDisjoint (base + o1) w1 (base + o2) w2 := by
  unfold RegionsDisjoint at *
  omega

theorem RegionsDisjoint.symm {o1 w1 o2 w2 : Nat}
    (h : RegionsDisjoint o1 w1 o2 w2) : RegionsDisjoint o2 w2 o1 w1 := by
  unfold RegionsDisjoint at *
  omega

/-- The little-endian byte decomposition sums back to the value modulo
the region's capacity. -/
theorem sum_bytes_eq_mod (v : Nat) :
    ∀ w, ((List.range w).map (fun j => byteOf v j * 256 ^ j)).sum =
      v % 256 ^ w := by
  intro w
  induction w with
  | zero => simp [Nat.mod_one]
  | succ w ih =>
    rw [List.range_succ, List.map_append, List.sum_append]
    simp only [List.map_cons, List.map_nil, List.sum_cons, List.sum_nil,
      Nat.add_zero]
    rw [ih, byteOf, pow_succ, Nat.mod_mul]
    ring

/-- Reading a region just written with a fitting value gives the value
back. -/
theorem readBytesLE_writeBytesLE_self (b : ByteStore) (off width v : Nat)
    (h : v < 256 ^ width) :
    readBytesLE (writeBytesLE b off width v) off width = v := by
  unfold readBytesLE
  have hmap : (List.range width).map
      (fun j => writeBytesLE b off width v (off + j) * 256 ^ j) =
      (List.range width).map (fun j => byteOf v j * 256 ^ j) := by
    apply List.map_congr_left
    intro j hj
    have hj' : j < width := List.mem_range.mp hj
    unfold writeBytesLE
    rw [if_pos ⟨Nat.le_add_right off j, by omega⟩]
    have he : off + j - off = j := by omega
    rw [he]
  rw [hmap, sum_bytes_eq_mod, Nat.mod_eq_of_lt h]

/-- A write leaves a disjoint region unchanged. -/
theorem readBytesLE_writeBytesLE_disjoint (b : ByteStore)
    (o1 w1 o2 w2 v : Nat) (h : RegionsDisjoint o1 w1 o2 w2) :
    readBytesLE (writeBytesLE b o2 w2 v) o1 w1 = readBytesLE b o1 w1 := by
  unfold readBytesLE
  congr 1
  apply List.map_congr_left
  intro j hj
  have hj' : j < w1 := List.mem_range.mp hj
  unfold RegionsDisjoint at h
  unfold writeBytesLE
  rw [if_neg (by omega)]

/-- The freshly allocated buffer reads as zero everywhere. -/
theorem readBytesLE_zeroStore (off width : Nat) :
    readBytesLE zeroStore off width = 0 := by
  unfold readBytesLE zeroStore
  simp

/-- The struct writer leaves any region disjoint from all written fields
unchanged. -/
theorem writeStructFields_untouched (x : String → Option Nat)
    (base o w : Nat) :
    ∀ (fields : List FieldLayout) (b : ByteStore),
      (∀ f ∈ fields, RegionsDisjoint o w (base + f.offset) f.width) →
      readBytesLE (writeStructFields fields x b base) o w =
        readBytesLE b o w := by
  intro fields
  induction fields with
  | nil => intro b _; rfl
  | cons g rest ih =>
    intro b h
    unfold writeStructFields
    cases hx : x g.name with
    | none => exact ih _ (fun f hf => h f (List.mem_cons_of_mem _ hf))
    | some v =>
      rw [ih _ (fun f hf => h f (List.mem_cons_of_mem _ hf))]
      exact readBytesLE_writeBytesLE_disjoint b o w (base + g.offset)
        g.width v (h g (List.mem_cons_self _ _))

/-- Reading one field's region after the struct writer: a present field
reads as the written value's contribution, an absent one as whatever the
initial buffer held there. -/
theorem writeStructFields_read_field (x : String → Option Nat)
    (base : Nat) :
    ∀ (fields : List FieldLayout) (b : ByteStore) (f : FieldLayout),
      f ∈ fields →
      fields.Pairwise (fun f g =>
        RegionsDisjoint f.offset f.width g.offset g.width) →
      (∀ g ∈ fields, ∀ v, x g.name = some v → v < 256 ^ g.width) →
      readBytesLE (writeStructFields fields x b base)
        (base + f.offset) f.width =
      (match x f.name with
       | some v => v
       | none => readBytesLE b (base + f.offset) f.width) := by
  intro fields
  induction fields with
  | nil => intro b f hf; cases hf
  | cons g rest ih =>
    intro b f hf hpw hv
    have hpw' := List.pairwise_cons.mp hpw
    rcases List.mem_cons.mp hf with hfg | hfr
    · subst hfg
      have huntouched : ∀ b' : ByteStore,
          readBytesLE (writeStructFields rest x b' base)
            (base + f.offset) f.width =
          readBytesLE b' (base + f.offset) f.width := by
        intro b'
        refine writeStructFields_untouched x base _ _ rest b' ?_
        intro r hr
        exact (hpw'.1 r hr).shiftBase base
      unfold writeStructFields
      cases hx : x f.name with
      | none => exact huntouched b
      | some v =>
        rw [huntouched (writeBytesLE b (base + f.offset) f.width v)]
        exact readBytesLE_writeBytesLE_self b (base + f.offset) f.width v
          (hv f (List.mem_cons_self _ _) v hx)
    · have hv' : ∀ r ∈ rest, ∀ v, x r.name = some v → v < 256 ^ r.width :=
        fun r hr => hv r (List.mem_cons_of_mem _ hr)
      unfold writeStructFields
      cases hx : x g.name with
      | none => exact ih b f hfr hpw'.2 hv'
      | some v =>
        rw [ih (writeBytesLE b (base + g.offset) g.width v) f hfr
          hpw'.2 hv']
        cases hx2 : x f.name with
        | some v2 => rfl
        | none =>
          exact readBytesLE_writeBytesLE_disjoint b (base + f.offset)
            f.width (base + g.offset) g.width v
            (((hpw'.1 f hfr).shiftBase base).symm)

/-- C8: calling the generated allocator with a partial field object and
no caller-supplied buffer yields a buffer of exactly the struct's size
in which every supplied field reads back as its supplied value and every
omitted field reads back as zero — provided the fields lie within the
struct, occupy pairwise disjoint byte regions (as clang layout
guarantees), and each supplied value fits its field's width. -/
theorem C8_struct_alloc (size : Nat) (fields : List FieldLayout)
    (x : String → Option Nat)
    (hb : ∀ f ∈ fields, FieldInBounds size f)
    (hd : fields.Pairwise (fun f g =>
      RegionsDisjoint f.offset f.width g.offset g.width))
    (hv : ∀ f ∈ fields, (x f.name).getD 0 < 256 ^ f.width) :
    (allocStruct size fields x).1 = size ∧
    (∀ f ∈ fields, ∀ v, x f.name = some v →
      readBytesLE (allocStruct size fields x).2 f.offset f.width = v) ∧
    (∀ f ∈ fields, x f.name = none →
      readBytesLE (allocStruct size fields x).2 f.offset f.width = 0) := by
  have hv' : ∀ g ∈ fields, ∀ v, x g.name = some v → v < 256 ^ g.width := by
    intro g hg v hveq
    have h0 := hv g hg
    rw [hveq] at h0
    simpa using h0
  refine ⟨rfl, ?_, ?_⟩
  · intro f hf v hx
    have h := writeStructFields_read_field x 0 fields zeroStore f hf hd hv'
    rw [hx] at h
    simpa [allocStruct] using h
  · intro f hf hx
    have h := writeStructFields_read_field x 0 fields zeroStore f hf hd hv'
    rw [hx] at h
    simpa [allocStruct, readBytesLE_zeroStore] using h

/-- The spec's example layout `[a: u32 @0, b: u8 @4, c: u64 @8]` of a
16-byte struct, and the partial argument `{b: 5}`. -/
def c8Fields : List FieldLayout :=
  [FieldLayout.mk "a" 0 4, FieldLayout.mk "b" 4 1, FieldLayout.mk "c" 8 8]

def c8X : String → Option Nat := fun n => if n = "b" then some 5 else none

/-- C8 (witness): the allocator on `{b: 5}` yields a 16-byte buffer with
`b` reading back 5 and `a`, `c` reading back zero. -/
theorem C8_witness :
    (allocStruct 16 c8Fields c8X).1 = 16 ∧
    readBytesLE (allocStruct 16 c8Fields c8X).2 4 1 = 5 ∧
    readBytesLE (allocStruct 16 c8Fields c8X).2 0 4 = 0 ∧
    readBytesLE (allocStruct 16 c8Fields c8X).2 8 8 = 0 := by
  have h := C8_struct_alloc 16 c8Fields c8X (by decide) (by decide)
    (by decide)
  refine ⟨h.1, ?_, ?_, ?_⟩
  · exact h.2.1 (FieldLayout.mk "b" 4 1)
      (List.mem_cons_of_mem _ (List.mem_cons_self _ _)) 5 rfl
  · exact h.2.2 (FieldLayout.mk "a" 0 4) (List.mem_cons_self _ _) rfl
  · exact h.2.2 (FieldLayout.mk "c" 8 8)
      (List.mem_cons_of_mem _ (List.mem_cons_of_mem _
        (List.mem_cons_self _ _))) rfl

/-! ## Claim C9 — no `lazy_alias` value ever reaches the declaration map -/

/-- Every value of the declaration map has a concrete (non-lazy)
top-level variant. -/
def DeclsOk (m : List (String × ParsedClangAstItem)) : Prop :=
  ∀ p ∈ m, p.2.isLazyAlias = false

theorem declsOk_mapSet {m : List (String × ParsedClangAstItem)}
    (k : String) (v : ParsedClangAstItem) (hm : DeclsOk m)
    (hv : v.isLazyAlias = false) : DeclsOk (mapSet m k v) := by
  intro p hp
  unfold mapSet at hp
  split at hp
  · rcases List.mem_map.mp hp with ⟨q, hq, hqe⟩
    by_cases hk : q.1 = k
    · rw [if_pos hk] at hqe
      rw [← hqe]
      exact hv
    · rw [if_neg hk] at hqe
      rw [← hqe]
      exact hm q hq
  · rcases List.mem_append.mp hp with hin | hin
    · exact hm p hin
    · rw [List.mem_singleton.mp hin]
      exact hv

theorem emitDeclGo_preserves :
    ∀ (fuel : Nat) (decls : List (String × ParsedClangAstItem)) las nm
      item, DeclsOk decls → item.isLazyAlias = false →
      DeclsOk (emitDeclGo fuel decls las nm item).1 := by
  intro fuel
  induction fuel with
  | zero =>
    intro decls las nm item hd hi
    exact declsOk_mapSet nm item hd hi
  | succ fuel ih =>
    intro decls las nm item hd hi
    unfold emitDeclGo
    cases hla : mapGet las nm with
    | none =>
      simp only
      exact declsOk_mapSet nm item hd hi
    | some la =>
      simp only
      exact ih _ _ _ _ (declsOk_mapSet nm item hd hi) rfl

theorem emitDecl_preserves (decls : List (String × ParsedClangAstItem))
    (las : List (String × LazyAlias)) (nm : String)
    (item : ParsedClangAstItem) (hd : DeclsOk decls)
    (hi : item.isLazyAlias = false) :
    DeclsOk (emitDecl decls las nm item).1 :=
  emitDeclGo_preserves _ decls las nm item hd hi

/-- Every statement branch either leaves the declaration map unchanged
or emits, through `emitDecl`, an item built by a concrete constructor
(the lazy-alias placeholder only ever enters the resolver-internal
pending map). -/
theorem parseStmt_preserves (sizeOf : String → Nat)
    (offsetOf : String → String → Nat) (s : ResolverState) (st : Stmt)
    (s' : ResolverState)
    (h : parseStmt sizeOf offsetOf s st = .ok s')
    (hd : DeclsOk s.decls) : DeclsOk s'.decls := by
  cases st
  case enumDecl nm inner =>
    unfold parseStmt at h; simp only at h
    cases hr : resolveEnumMembers inner with
    | error e => rw [hr] at h; simp only at h; cases h
    | ok fields =>
      rw [hr] at h
      simp only at h
      cases h
      exact emitDecl_preserves s.decls s.lazyAliases nm
        (.enum 4 (some nm) fields) hd rfl
  case typedefAliasDecl nm aliasTo =>
    unfold parseStmt at h; simp only at h
    cases hr : getDecl s.decls aliasTo false with
    | error e => rw [hr] at h; simp only at h; cases h
    | ok aliasToType =>
      rw [hr] at h
      simp only at h
      cases h
      exact emitDecl_preserves s.decls s.lazyAliases nm
        (.alias aliasToType.size false (some nm) aliasToType) hd rfl
  case recordDecl nm inner =>
    cases inner with
    | none =>
      unfold parseStmt at h; simp only at h
      cases h
      exact hd
    | some members =>
      unfold parseStmt at h; simp only at h
      cases hr : parseStructFields s.decls sizeOf offsetOf nm members with
      | error e => rw [hr] at h; simp only at h; cases h
      | ok fields =>
        rw [hr] at h
        simp only at h
        cases h
        exact emitDecl_preserves s.decls s.lazyAliases nm
          (.struct (sizeOf nm) (some nm) fields) hd rfl
  case funcPointerTypedef nm retAst argsAst =>
    unfold parseStmt at h; simp only at h
    cases hr : extractType s.decls retAst with
    | error e => rw [hr] at h; simp only at h; cases h
    | ok returnType =>
      rw [hr] at h
      simp only at h
      cases ha : extractArgTypes s.decls argsAst with
      | error e => rw [ha] at h; simp only at h; cases h
      | ok args =>
        rw [ha] at h
        simp only at h
        cases h
        exact emitDecl_preserves s.decls s.lazyAliases nm
          (.func_pointer POINTER_SIZE (some nm)
            (.func_decl POINTER_SIZE (some nm) returnType args)) hd rfl
  case opaquePointerTypedef nm =>
    unfold parseStmt at h; simp only at h
    cases h
    exact emitDecl_preserves s.decls s.lazyAliases nm
      (.pointer POINTER_SIZE (some nm) none false) hd rfl
  case functionDecl nm signature params =>
    unfold parseStmt at h; simp only at h
    cases hr : extractQualTypeOrPtr s.decls
        (jsTrim (splitHeadParen signature)) with
    | error e => rw [hr] at h; simp only at h; cases h
    | ok returnType =>
      rw [hr] at h
      simp only at h
      cases ha : extractParams s.decls params with
      | error e => rw [ha] at h; simp only at h; cases h
      | ok args =>
        rw [ha] at h
        simp only at h
        cases h
        exact emitDecl_preserves s.decls s.lazyAliases nm
          (.func_decl POINTER_SIZE none returnType args) hd rfl
  case typedefFallback nm qualType =>
    unfold parseStmt at h; simp only at h
    cases hr : extractQualTypeOrPtr s.decls qualType with
    | ok aliasType =>
      rw [hr] at h
      simp only at h
      cases h
      exact emitDecl_preserves s.decls s.lazyAliases nm
        (.alias aliasType.size false (some nm) aliasType) hd rfl
    | error e =>
      rw [hr] at h
      simp only at h
      by_cases hs : jsStartsWith qualType "struct " = true
      · simp only [hs, if_true] at h
        cases h
        exact hd
      · have hs' : jsStartsWith qualType "struct " = false := by
          simpa using hs
        simp only [hs', if_false] at h
        cases h
        exact hd

theorem parseStmts_preserves (sizeOf : String → Nat)
    (offsetOf : String → String → Nat) :
    ∀ (stmts : List Stmt) (s s' : ResolverState),
      parseStmts sizeOf offsetOf stmts s = .ok s' →
      DeclsOk s.decls → DeclsOk s'.decls := by
  intro stmts
  induction stmts with
  | nil =>
    intro s s' h hd
    cases h
    exact hd
  | cons st rest ih =>
    intro s s' h hd
    unfold parseStmts at h
    cases hp : parseStmt sizeOf offsetOf s st with
    | error e => rw [hp] at h; cases h
    | ok s1 =>
      rw [hp] at h
      exact ih s1 s' h (parseStmt_preserves sizeOf offsetOf s st s1 hp hd)

/-- C9: every value of the `decls` map returned by `parseClangAst` is
one of the concrete resolved variants — a `lazy_alias` placeholder never
appears as a value of the returned map (pending typedefs live only in
the resolver-internal map and are converted to ordinary `alias` nodes on
promotion). -/
theorem C9_no_lazy_alias_in_decls (astJson : List Stmt)
    (sizeOf : String → Nat) (offsetOf : String → String → Nat)
    (r : ParsedClangAstResult)
    (h : parseClangAst astJson sizeOf offsetOf = .ok r) :
    ∀ p ∈ r.decls, p.2.isLazyAlias = false := by
  have h0 : DeclsOk builtinDecls := by
    unfold DeclsOk
    decide
  unfold parseClangAst at h
  cases hp : parseStmts sizeOf offsetOf astJson
      (ResolverState.mk builtinDecls [] [] []) with
  | error e => rw [hp] at h; cases h
  | ok sfin =>
    rw [hp] at h
    cases h
    exact parseStmts_preserves sizeOf offsetOf astJson _ sfin hp h0

/-- C9 (witness): the invariant applied to the empty input (whose
result map is the builtin table); its first entry is not a lazy
alias. -/
theorem C9_witness :
    ((builtinDecls.get ⟨0, by decide⟩).2).isLazyAlias = false := by
  have h := C9_no_lazy_alias_in_decls [] (fun _ => 0) (fun _ _ => 0)
    (ParsedClangAstResult.mk builtinDecls [] []) rfl
  exact h _ (List.get_mem _ _ _)

/-! ## Claim C6 — implicit member after a non-integer explicit value -/

/-- Discriminator for the `int` variant of an enum field value. -/
def EnumFieldValue.isInt : EnumFieldValue → Bool
  | .int _ => true
  | _ => false

/-- After an explicit member whose parsed value is not an integer
literal, the counter is `"no-counter"`, and the following implicit
member throws — wherever the pair sits in the member list (an error in
the preceding members also aborts the enum). -/
theorem resolveEnumGo_error_after_nonint (post : List EnumMember)
    (nm1 nm2 : String) (ast : EnumValAst)
    (hni : (parseEnumValue ast).isInt = false) :
    ∀ (ms : List EnumMember) (c : EnumCounter)
      (fields : List (String × EnumFieldValue)),
      ∃ e, resolveEnumMembersGo
        (ms ++ .member nm1 (some ast) :: .member nm2 none :: post)
        c fields = .error e := by
  intro ms
  induction ms with
  | nil =>
    intro c fields
    rcases hv : parseEnumValue ast with v | v | v
    · exact ⟨"enum with mixed implicit & explicit declarations",
        by simp [resolveEnumMembersGo, hv]⟩
    · rw [hv] at hni
      simp [EnumFieldValue.isInt] at hni
    · exact ⟨"enum with mixed implicit & explicit declarations",
        by simp [resolveEnumMembersGo, hv]⟩
  | cons m rest ih =>
    intro c fields
    cases m with
    | fullComment => simpa [resolveEnumMembersGo] using ih c fields
    | member nm init =>
      cases init with
      | some a => simpa [resolveEnumMembersGo] using ih _ _
      | none =>
        cases c with
        | noCounter =>
          exact ⟨"enum with mixed implicit & explicit declarations",
            by simp [resolveEnumMembersGo]⟩
        | undef => simpa [resolveEnumMembersGo] using ih _ _
        | val n => simpa [resolveEnumMembersGo] using ih _ _

/-- C6: for every enum member list in which an implicit member directly
follows an explicit member whose initializer parses to a non-integer
value (an operator expression or an alias to another constant),
resolution of the member loop fails with an error — no guessed value is
assigned. -/
theorem C6_implicit_after_nonint_is_error (pre post : List EnumMember)
    (nm1 nm2 : String) (ast : EnumValAst)
    (hni : (parseEnumValue ast).isInt = false) :
    (resolveEnumMembers
      (pre ++ .member nm1 (some ast) :: .member nm2 none :: post)).isOk =
      false := by
  obtain ⟨e, he⟩ :=
    resolveEnumGo_error_after_nonint post nm1 nm2 ast hni pre .undef []
  unfold resolveEnumMembers
  rw [he]
  rfl

/-- C6 (witness): the spec's example `[A = (1<<2), B]` with B implicit
fails resolution. -/
theorem C6_witness :
    (resolveEnumMembers
      [.member "A" (some (.constantExpr (.parenExpr (.binaryOperator "<<"
        (.integerLiteral "1") (.integerLiteral "2"))))),
       .member "B" none]).isOk = false :=
  C6_implicit_after_nonint_is_error [] [] "A" "B"
    (.constantExpr (.parenExpr (.binaryOperator "<<"
      (.integerLiteral "1") (.integerLiteral "2")))) rfl
